import Mathlib

/-
Verification of the OpenStack portal inventory-reconciliation and cost-accounting
core (src/portal/tasks.py, src/portal/services/inventory_service.py,
src/portal/services/cost_service.py, src/portal/models.py) against its
natural-language specification.

The Django ORM upserts (`update_or_create`) are embedded as overwriting writes
into function-typed finite maps; Python dictionaries built by the bulk map
builders are embedded the same way.  Python truthiness (`x or y`, `if x:`) on
the duck-typed SDK payloads is embedded by explicit helpers: a `Nat` field is
falsy when it is 0, a `String` field is falsy when it is empty, an
`Option` field is falsy when it is `none` or holds a falsy value.
Auto-updated `updated_at` timestamps and the append-only AuditLog are outside
the claims and are not modelled.
-/

namespace Portal

/-! ### Generic overwriting map writes (Django `update_or_create` / dict assignment) -/

/-- Overwriting upsert into a function-typed map: the row at key `k` becomes `v`,
every other key is untouched.  This is the persistent effect of Django's
`Model.objects.update_or_create(key..., defaults=...)` when every stored column
appears in `defaults`, and also of a Python dict assignment `m[k] = v`. -/
def pwrite {K V : Type} [DecidableEq K] (f : K → Option V) (k : K) (v : V) : K → Option V :=
  fun k2 => if k2 = k then some v else f k2

/-- Sequence of overwriting writes, first list element applied first
(so the last write at a key wins, as in the source's loops). -/
def pfold {K V : Type} [DecidableEq K] (ws : List (K × V)) (f : K → Option V) : K → Option V :=
  ws.foldl (fun g w => pwrite g w.1 w.2) f

/-- Pointwise trace of `pfold` at a single key `k`, threading the previous value. -/
def lastWApp {K V : Type} [DecidableEq K] (ws : List (K × V)) (k : K) (o : Option V) : Option V :=
  ws.foldl (fun acc w => if k = w.1 then some w.2 else acc) o

theorem pwrite_self {K V : Type} [DecidableEq K] (f : K → Option V) (k : K) (v : V) :
    pwrite f k v k = some v := by
  simp [pwrite]

theorem pwrite_other {K V : Type} [DecidableEq K] (f : K → Option V) {k k2 : K} (v : V)
    (h : k2 ≠ k) : pwrite f k v k2 = f k2 := by
  simp [pwrite, h]

theorem pfold_apply {K V : Type} [DecidableEq K] (ws : List (K × V)) (f : K → Option V) (k : K) :
    pfold ws f k = lastWApp ws k (f k) := by
  induction ws generalizing f with
  | nil => rfl
  | cons w t ih =>
    show pfold t (pwrite f w.1 w.2) k = lastWApp t k (if k = w.1 then some w.2 else f k)
    rw [ih]
    rfl

theorem lastWApp_absorb {K V : Type} [DecidableEq K] (ws : List (K × V)) (k : K) (o : Option V) :
    lastWApp ws k (lastWApp ws k o) = lastWApp ws k o := by
  induction ws generalizing o with
  | nil => rfl
  | cons w t ih =>
    show lastWApp t k (if k = w.1 then some w.2 else lastWApp t k (if k = w.1 then some w.2 else o)) =
      lastWApp t k (if k = w.1 then some w.2 else o)
    by_cases h : k = w.1
    · simp only [if_pos h]
    · simp only [if_neg h]
      exact ih o

/-- Writing the same list of key-value pairs twice leaves the map unchanged
after the first application. -/
theorem pfold_idem {K V : Type} [DecidableEq K] (ws : List (K × V)) (f : K → Option V) :
    pfold ws (pfold ws f) = pfold ws f := by
  funext k
  simp only [pfold_apply]
  exact lastWApp_absorb ws k (f k)

/-! ### Python truthiness helpers -/

/-- Python `a or b` for an integer-valued lookup that may be absent:
`raw_stats.get(field) or fallback` (0 and `None` are falsy). -/
def pyOrNat : Option Nat → Nat → Nat
  | some v, d => if v = 0 then d else v
  | none, d => d

/-- Python `a or b` on strings (the empty string is falsy). -/
def pyOrS (a b : String) : String := if a = "" then b else a

/-- Python `a or b` for a string-valued lookup that may be absent. -/
def pyOrStr : Option String → String → String
  | some v, d => if v = "" then d else v
  | none, d => d

/-- Python `a or b` where both sides are optional strings
(`bmc_map.get(x) or bmc_map.get(y)`, `d.get(k1) or d.get(k2)`). -/
def pyOrOpt (a b : Option String) : Option String :=
  match a with
  | some s => if s = "" then b else some s
  | none => b

/-- Python truthiness of an optional string (`if address:`). -/
def truthy : Option String → Bool
  | some s => s ≠ ""
  | none => false

/-! ### Remote (connector) payloads, as duck-typed by tasks.sync_inventory

Absent attributes and JSON keys are `Option`; a Python `None` string field is
embedded as the empty string when the source only ever tests it for truthiness. -/

/-- Hypervisor summary object from `client.get_hypervisors()` (tasks.py:73).
`hid` embeds `hyp.id`. -/
structure RHyp where
  name : String
  hid : String
  vcpus : Nat
  vcpus_used : Nat
  memory_size : Nat
  memory_used : Nat
  host_ip : String
  state : String
  status : String
deriving DecidableEq

/-- Raw per-hypervisor dict from the bulk `/os-hypervisors/detail` call
(tasks.py:81-85); each field is read with `.get`, so it may be absent. -/
structure RStats where
  vcpus : Option Nat
  vcpus_used : Option Nat
  memory_mb : Option Nat
  memory_mb_used : Option Nat
  host_ip : Option String
deriving DecidableEq

/-- Default for `hypervisor_stats_map.get(hyp.name, {})`: the empty dict,
whose every `.get` yields `None`. -/
def emptyStats : RStats := ⟨none, none, none, none, none⟩

/-- Entry of the raw bulk-stats list; the dict key is
`h.get('hypervisor_hostname')` (tasks.py:85), which may be absent. -/
structure RStatsEntry where
  hypervisor_hostname : Option String
  stats : RStats
deriving DecidableEq

/-- Compute service object from `client.get_services()` (tasks.py:47-52).
`availability_zone` is read with `getattr(svc, 'availability_zone', 'nova')`,
so it is `none` exactly when the attribute is missing. -/
structure RService where
  binary : String
  host : String
  availability_zone : Option String
  status : String
  state : String
deriving DecidableEq

/-- Ironic bare-metal node driver metadata (tasks.py:59-66,
inventory_service.py:162-175). -/
structure RDriverInfo where
  redfish_address : Option String
  ipmi_address : Option String
  drac_address : Option String
deriving DecidableEq

/-- Ironic bare-metal node.  `name` and `instance_id` are guarded by truthiness
checks in the source, so they are optional; `nid` embeds `node.id`. -/
structure RNode where
  name : Option String
  nid : String
  instance_id : Option String
  driver_info : RDriverInfo
deriving DecidableEq

/-- Address entry inside one network group of `server.addresses`. -/
structure RAddr where
  version : Option Nat
  addr : Option String
deriving DecidableEq

/-- Value of `server.image`: falsy (`None` / empty dict / empty string),
a structured reference with an optional identifier, or a bare string id. -/
inductive RImage where
  | absent
  | dict (iid : Option String)
  | str (s : String)
deriving DecidableEq

/-- Server object from the bulk `servers(details=True, all_tenants=True)` call
(tasks.py:98).  `sid` embeds `server.id`; `addresses` keeps the reported
iteration order of the network groups; `launched_at` is the raw string
(empty embeds `None`); `flavor_original_name` embeds
`server.flavor.get('original_name', 'unknown')` (absent key = `none`). -/
structure RServer where
  sid : String
  name : String
  status : String
  flavor_original_name : Option String
  project_id : String
  user_id : String
  addresses : List (String × List RAddr)
  image : RImage
  key_name : String
  launched_at : String
  hypervisor_hostname : String
  compute_host : String
deriving DecidableEq

/-- Volume attachment entry (`vol.attachments[i]`); `server_id` is read with
`.get('server_id')`.  The device path is embedded as a present string, which is
the shape the block-storage API reports for attached volumes. -/
structure RAttach where
  server_id : Option String
  device : String
deriving DecidableEq

/-- Volume object from the bulk `volumes(all_tenants=True)` call (tasks.py:112).
`vid` embeds `vol.id`. -/
structure RVol where
  vid : String
  name : String
  size : Nat
  attachments : List RAttach
  status : String
  bootable : Bool
deriving DecidableEq

/-! ### Bulk Map Builder (tasks.py:57-121, inventory_service.py:152-240) -/

/-- Iterated deletion of every occurrence of `pat`, scanning left to right and
resuming right after each deleted occurrence — Python `s.replace(pat, '')`.
The fuel argument makes the recursion structural; each step consumes at least
one character, so fuel `s.length` is always enough. -/
def stripAllGo (pat : List Char) : Nat → List Char → List Char
  | _, [] => []
  | 0, s => s
  | fuel + 1, c :: rest =>
    if pat ≠ [] ∧ pat.isPrefixOf (c :: rest) then
      stripAllGo pat fuel ((c :: rest).drop pat.length)
    else
      c :: stripAllGo pat fuel rest

/-- Python `s.replace(pat, '')`. -/
def stripAll (pat s : List Char) : List Char :=
  stripAllGo pat s.length s

/-- BMC address normalization (tasks.py:63, inventory_service.py:170):
`address.replace('https://', '').replace('http://', '').split('/')[0]`. -/
def normalizeBmc (s : String) : String :=
  String.mk ((stripAll "http://".data (stripAll "https://".data s.data)).takeWhile (fun c => c ≠ '/'))

/-- Raw BMC address of a node:
`driver_info.get('redfish_address') or driver_info.get('ipmi_address') or
driver_info.get('drac_address')`, filtered by the `if address:` truthiness
guard — `none` when the guard fails. -/
def rawAddress (n : RNode) : Option String :=
  let address := pyOrOpt (pyOrOpt n.driver_info.redfish_address n.driver_info.ipmi_address)
    n.driver_info.drac_address
  match address with
  | some a => if a = "" then none else some a
  | none => none

/-- Keys under which a node registers its BMC address, in write order:
its name (if truthy), its identifier, its instance identifier (if truthy). -/
def nodeKeys (n : RNode) : List String :=
  match rawAddress n with
  | none => []
  | some _ =>
    (match n.name with | some nm => if nm = "" then [] else [nm] | none => []) ++
    [n.nid] ++
    (match n.instance_id with | some iid => if iid = "" then [] else [iid] | none => [])

/-- Processing of one bare-metal node into the BMC map (tasks.py:60-66). -/
def nodeStep (m : String → Option String) (n : RNode) : String → Option String :=
  match rawAddress n with
  | none => m
  | some a =>
    let addr := normalizeBmc a
    let m1 := match n.name with
      | some nm => if nm = "" then m else pwrite m nm addr
      | none => m
    let m2 := pwrite m1 n.nid addr
    match n.instance_id with
    | some iid => if iid = "" then m2 else pwrite m2 iid addr
    | none => m2

/-- InventoryService.build_bmc_map / tasks.py:57-67: map from node name, node
id and instance id to the normalized BMC address. -/
def build_bmc_map (nodes : List RNode) : String → Option String :=
  nodes.foldl nodeStep (fun _ => none)

/-- Bulk hypervisor stats map (tasks.py:78-88): `stats_map[hostname] = h`,
skipping nothing — an entry whose `hypervisor_hostname` is absent is keyed by
Python `None` and is unreachable from the string-keyed lookups, so it is
dropped here. -/
def build_stats_map (entries : List RStatsEntry) : String → Option RStats :=
  entries.foldl
    (fun m e => match e.hypervisor_hostname with
      | some hn => pwrite m hn e.stats
      | none => m)
    (fun _ => none)

/-- Appending write of a `defaultdict(list)`: `m[k].append(v)`. -/
def awrite {K V : Type} [DecidableEq K] (m : K → List V) (k : K) (v : V) : K → List V :=
  fun k2 => if k2 = k then m k2 ++ [v] else m k2

/-- Host→instances map (tasks.py:95-106): group all servers by
`srv.hypervisor_hostname or srv.compute_host`, skipping servers whose
hostname resolves falsy. -/
def build_host_instance_map (servers : List RServer) : String → List RServer :=
  servers.foldl
    (fun m srv =>
      let h_name := pyOrS srv.hypervisor_hostname srv.compute_host
      if h_name = "" then m else awrite m h_name srv)
    (fun _ => [])

/-- Instance→volumes map (tasks.py:109-121): explode each volume's attachment
list, appending the volume under every truthy `server_id`. -/
def build_instance_volume_map (vols : List RVol) : String → List RVol :=
  vols.foldl
    (fun m v =>
      v.attachments.foldl
        (fun m a => match a.server_id with
          | some sid => if sid = "" then m else awrite m sid v
          | none => m)
        m)
    (fun _ => [])

/-! ### Persisted rows (models.py), restricted to the columns the sync pass writes -/

/-- Columns of `PhysicalHost` written by the sync pass (tasks.py:140-157).
Columns the pass never writes (`is_maintenance`, hardware info, ...) are
untouched by `update_or_create` and are omitted. -/
structure HostRow where
  ip_address : String
  cpu_count : Nat
  vcpus_used : Nat
  memory_mb : Nat
  memory_mb_used : Nat
  state : String
  status : String
  openstack_version : String
  idrac_ip : Option String
deriving DecidableEq

/-- Columns of `Instance` written by the sync pass (tasks.py:188-203).
`host` is the natural key (cluster, hostname) of the owning PhysicalHost row. -/
structure InstRow where
  host : String × String
  name : String
  status : String
  flavor_name : String
  project_id : String
  user_id : String
  ip_address : Option String
  network_name : String
  image_name : String
  key_name : String
  launched_at : Option String
deriving DecidableEq

/-- Columns of `Volume` written by the sync pass (tasks.py:210-220).
`instance_id` is the remote id of the owning instance. -/
structure VolRow where
  instance_id : String
  name : String
  size_gb : Nat
  device : String
  status : String
  is_bootable : Bool
deriving DecidableEq

/-- Columns of `ClusterService` written by the sync pass (tasks.py:49-52). -/
structure SvcRow where
  zone : String
  status : String
  state : String
  version : String
deriving DecidableEq

/-! ### Row construction -/

/-- BMC address found this pass:
`bmc_map.get(hyp.name) or bmc_map.get(hyp.id)` (tasks.py:131). -/
def found_idrac_ip (bmc : String → Option String) (h : RHyp) : Option String :=
  pyOrOpt (bmc h.name) (bmc h.hid)

/-- Merge of the found BMC address with the stored one: the `idrac_ip` key is
added to the upsert defaults only under `if found_idrac_ip:` (tasks.py:150-151),
so a falsy find keeps the stored value. -/
def idrMerge (fo io : Option String) : Option String :=
  if truthy fo then fo else io

/-- PhysicalHost upsert values (tasks.py:134-149) given the already-merged
idrac address `io`: each capacity field is
`raw_stats.get(field) or hyp.field or 0`, the host ip is
`raw_stats.get('host_ip') or hyp.host_ip or '0.0.0.0'`. -/
def hostRowWith (ver : String) (raw : RStats) (h : RHyp) (io : Option String) : HostRow :=
  { ip_address := pyOrStr raw.host_ip (pyOrS h.host_ip "0.0.0.0")
    cpu_count := pyOrNat raw.vcpus h.vcpus
    vcpus_used := pyOrNat raw.vcpus_used h.vcpus_used
    memory_mb := pyOrNat raw.memory_mb h.memory_size
    memory_mb_used := pyOrNat raw.memory_mb_used h.memory_used
    state := h.state
    status := h.status
    openstack_version := ver
    idrac_ip := io }

/-- Full PhysicalHost row produced by one upsert (tasks.py:131-157), from the
bulk stats map, the connector summary object and the previously stored row. -/
def syncHostRow (ver : String) (stats : String → Option RStats) (bmc : String → Option String)
    (h : RHyp) (old : Option HostRow) : HostRow :=
  hostRowWith ver ((stats h.name).getD emptyStats) h
    (idrMerge (found_idrac_ip bmc h) (old.bind HostRow.idrac_ip))

/-- Inner scan of one network group (tasks.py:168-172): stop at the first
entry whose version is 4, reporting its (possibly absent) address. -/
def scanGroup : List RAddr → Option (Option String)
  | [] => none
  | a :: rest => if a.version = some 4 then some a.addr else scanGroup rest

/-- Network extraction loop (tasks.py:163-173): iterate groups in reported
order; on a version-4 hit, record address and group name and stop the outer
loop only if the address is truthy. -/
def extractNet : List (String × List RAddr) → Option String × String → Option String × String
  | [], acc => acc
  | (net_name, addrs) :: rest, acc =>
    match scanGroup addrs with
    | none => extractNet rest acc
    | some a => if truthy a then (a, net_name) else extractNet rest (a, net_name)

/-- Image-name extraction (tasks.py:175-180). -/
def imageName : RImage → String
  | .absent => "N/A"
  | .dict iid => pyOrStr iid "Unknown ID"
  | .str s => if s = "" then "N/A" else s

/-- Abstract timestamp toolbox standing for `django.utils.dateparse` /
`django.utils.timezone`.  `parse` returns `none` on an unparsable string. -/
structure TimeEnv where
  parse : String → Option String
  is_naive : String → Bool
  make_aware : String → String

/-- Launch-timestamp handling as written in
InventoryService.sync_instance (inventory_service.py:103-108): the result of a
failed parse is guarded by `if launched_at and ...`, so an unparsable
timestamp yields an absent field. -/
def launchedAtService (te : TimeEnv) (raw : String) : Option String :=
  if raw = "" then none
  else match te.parse raw with
    | none => none
    | some t => some (if te.is_naive t then te.make_aware t else t)

/-- Launch-timestamp handling as written in tasks.sync_inventory
(tasks.py:182-186): `timezone.is_naive(launched_at)` is evaluated without a
`None` guard, so an unparsable non-empty timestamp raises `AttributeError`
(modelled as `Except.error`). -/
def launchedAtTask (te : TimeEnv) (raw : String) : Except Unit (Option String) :=
  if raw = "" then Except.ok none
  else match te.parse raw with
    | none => Except.error ()
    | some t => Except.ok (some (if te.is_naive t then te.make_aware t else t))

/-- Instance upsert values (tasks.py:162-203).  Row computation uses the
guarded timestamp variant: on the inputs where the unguarded tasks.py variant
would instead raise, the exception is represented by the pass's injected
failure point (see `processHyps` and claim C4). -/
def instanceRow (te : TimeEnv) (cid hostname : String) (srv : RServer) : InstRow :=
  let ipnet := extractNet srv.addresses (none, "provider-net")
  { host := (cid, hostname)
    name := srv.name
    status := srv.status
    flavor_name := srv.flavor_original_name.getD "unknown"
    project_id := srv.project_id
    user_id := srv.user_id
    ip_address := ipnet.1
    network_name := ipnet.2
    image_name := imageName srv.image
    key_name := pyOrS srv.key_name "-"
    launched_at := launchedAtService te srv.launched_at }

/-- Volume upsert values (tasks.py:210-220): the device is read from
`vol.attachments[0]` — the first attachment entry overall, regardless of which
server it belongs to. -/
def volRow (sid : String) (v : RVol) : VolRow :=
  { instance_id := sid
    name := v.name
    size_gb := v.size
    device := match v.attachments with
      | [] => ""
      | a :: _ => a.device
    status := pyOrS v.status "unknown"
    is_bootable := v.bootable }

/-- ClusterService upsert values (tasks.py:49-52). -/
def svcRowOf (ver : String) (svc : RService) : SvcRow :=
  { zone := svc.availability_zone.getD "nova"
    status := svc.status
    state := svc.state
    version := ver }

/-! ### Inventory store and the reconciliation pass (tasks.py:24-237) -/

/-- Persisted inventory state touched by the sync pass: cluster statuses and
the four upserted row collections, each keyed by its natural key. -/
structure Store where
  clusterStatus : String → String
  hosts : String × String → Option HostRow
  instances : String → Option InstRow
  volumes : String → Option VolRow
  services : String × String × String → Option SvcRow

/-- Status flip with save (tasks.py:41-43 and 228-235); writing
unconditionally has the same end state as the guarded write in the source. -/
def setStatus (cid st : String) (s : Store) : Store :=
  { s with clusterStatus := fun c => if c = cid then st else s.clusterStatus c }

/-- Service sync (tasks.py:47-52): one upsert per reported service, keyed by
(cluster, binary, host). -/
def svcWrites (cid ver : String) (svcs : List RService) :
    List ((String × String × String) × SvcRow) :=
  svcs.map (fun svc => ((cid, svc.binary, svc.host), svcRowOf ver svc))

/-- Volume writes for one instance (tasks.py:205-220). -/
def volWrites (sid : String) (vols : List RVol) : List (String × VolRow) :=
  vols.map (fun v => (v.vid, volRow sid v))

/-- Instance sync step for one server (tasks.py:162-221): upsert the instance
row, then upsert its volumes from the instance→volume map. -/
def syncOneServer (te : TimeEnv) (cid hostname : String) (ivm : String → List RVol)
    (s : Store) (srv : RServer) : Store :=
  let s1 := { s with instances := pwrite s.instances srv.sid (instanceRow te cid hostname srv) }
  { s1 with volumes := pfold (volWrites srv.sid (ivm srv.sid)) s1.volumes }

/-- Per-hypervisor step of the sync loop (tasks.py:126-221): upsert the host
row, then sync the instances grouped under this hostname. -/
def hypStep (te : TimeEnv) (cid ver : String) (bmc : String → Option String)
    (stats : String → Option RStats) (him : String → List RServer)
    (ivm : String → List RVol) (s : Store) (h : RHyp) : Store :=
  let s1 := { s with
    hosts := pwrite s.hosts (cid, h.name) (syncHostRow ver stats bmc h (s.hosts (cid, h.name))) }
  (him h.name).foldl (syncOneServer te cid h.name ivm) s1

/-- Hypervisor loop with an injected uncaught exception: `failAt = some n`
raises just before processing hypervisor number `n` (0-based), leaving all
rows committed so far in place, as Python exceptions do not roll back the
already-saved ORM writes.  This models any uncaught exception inside the
per-cluster `try:` body of tasks.py:37-224 (including the malformed-timestamp
`AttributeError` of claim C4). -/
def processHyps (step : Store → RHyp → Store) :
    Option Nat → List RHyp → Store → Except Store Store
  | some 0, _, s => Except.error s
  | some (_ + 1), [], s => Except.ok s
  | none, [], s => Except.ok s
  | some (n + 1), h :: t, s => processHyps step (some n) t (step s h)
  | none, h :: t, s => processHyps step none t (step s h)

/-- Remote state of one cluster as observed by one pass, plus the failure
injection: `connectOk = false` models a connection/endpoint error raised
before the cluster is marked online (tasks.py:38-39). -/
structure ClusterRemote where
  connectOk : Bool
  version : String
  services : List RService
  bmcNodes : List RNode
  statsList : List RStatsEntry
  servers : List RServer
  volumes : List RVol
  hypervisors : List RHyp
  failAt : Option Nat
deriving DecidableEq

/-- Per-hypervisor step with the four bulk maps built from the remote state
(tasks.py:57-121). -/
def clusterStep (te : TimeEnv) (cid : String) (r : ClusterRemote) : Store → RHyp → Store :=
  hypStep te cid r.version (build_bmc_map r.bmcNodes) (build_stats_map r.statsList)
    (build_host_instance_map r.servers) (build_instance_volume_map r.volumes)

/-- Whether an injected failure point fires on a given hypervisor list. -/
def firesB (fa : Option Nat) (l : List RHyp) : Bool :=
  match fa with
  | some n => n ≤ l.length
  | none => false

/-- Prefix of the hypervisor list processed before the injected failure point
(the whole list when it does not fire). -/
def procList (fa : Option Nat) (l : List RHyp) : List RHyp :=
  match fa with
  | some n => l.take n
  | none => l

/-- Whether the injected exception fires during this pass. -/
def fires (r : ClusterRemote) : Bool :=
  firesB r.failAt r.hypervisors

/-- Hypervisors actually processed by the pass (all of them, or the prefix
before the injected exception). -/
def processedHyps (r : ClusterRemote) : List RHyp :=
  procList r.failAt r.hypervisors

/-- One cluster's pass, i.e. the body of the `for cluster in clusters:` loop
of tasks.sync_inventory (tasks.py:34-235): connect, mark online, sync
services, build maps, run the hypervisor loop; any uncaught exception flips
the cluster offline, keeping all rows committed before the exception. -/
def sync_cluster_pass (te : TimeEnv) (cid : String) (r : ClusterRemote) (s : Store) : Store :=
  if r.connectOk then
    let s1 := setStatus cid "online" s
    let s2 := { s1 with services := pfold (svcWrites cid r.version r.services) s1.services }
    match processHyps (clusterStep te cid r) r.failAt r.hypervisors s2 with
    | Except.ok s3 => s3
    | Except.error s3 => setStatus cid "offline" s3
  else
    setStatus cid "offline" s

/-- Full inventory sync (tasks.py:24-237): clusters processed one at a time in
iteration order, each pass isolated by its own exception handler. -/
def sync_inventory (te : TimeEnv) (cs : List (String × ClusterRemote)) (s : Store) : Store :=
  cs.foldl (fun s c => sync_cluster_pass te c.1 c.2 s) s

/-! ### Pointwise effect of the hypervisor loop on the host table -/

/-- Projection to the stored idrac address. -/
def idracOf (o : Option HostRow) : Option String :=
  o.bind HostRow.idrac_ip

/-- Trace, at one host key `k`, of the host-row writes performed by the
hypervisor loop. -/
def hEff (ver : String) (bmc : String → Option String) (stats : String → Option RStats)
    (cid : String) (k : String × String) : List RHyp → Option HostRow → Option HostRow
  | [], o => o
  | h :: t, o =>
    hEff ver bmc stats cid k t
      (if k = (cid, h.name) then some (syncHostRow ver stats bmc h o) else o)

/-- Last hypervisor of the list writing at host key `k` (accumulator style). -/
def lastMatch (cid : String) (k : String × String) : List RHyp → Option RHyp → Option RHyp
  | [], acc => acc
  | h :: t, acc => lastMatch cid k t (if k = (cid, h.name) then some h else acc)

/-- Accumulated idrac merge of the writes at host key `k`. -/
def ichain (bmc : String → Option String) (cid : String) (k : String × String) :
    List RHyp → Option String → Option String
  | [], io => io
  | h :: t, io =>
    ichain bmc cid k t (if k = (cid, h.name) then idrMerge (found_idrac_ip bmc h) io else io)

theorem lastMatch_acc (cid : String) (k : String × String) :
    ∀ (l : List RHyp) (a : Option RHyp),
      lastMatch cid k l a =
        match lastMatch cid k l none with
        | some x => some x
        | none => a := by
  intro l
  induction l with
  | nil => intro a; rfl
  | cons h t ih =>
    intro a
    show lastMatch cid k t (if k = (cid, h.name) then some h else a) = _
    by_cases hc : k = (cid, h.name)
    · rw [if_pos hc]
      have hr : lastMatch cid k (h :: t) none = lastMatch cid k t (some h) := by
        show lastMatch cid k t (if k = (cid, h.name) then some h else none) = _
        rw [if_pos hc]
      rw [hr, ih (some h)]
      cases lastMatch cid k t none <;> rfl
    · rw [if_neg hc]
      have hr : lastMatch cid k (h :: t) none = lastMatch cid k t none := by
        show lastMatch cid k t (if k = (cid, h.name) then some h else none) = _
        rw [if_neg hc]
      rw [hr, ih a]

theorem ichain_id_of_no_match (bmc : String → Option String) (cid : String) (k : String × String) :
    ∀ (l : List RHyp), lastMatch cid k l none = none →
      ∀ (io : Option String), ichain bmc cid k l io = io := by
  intro l
  induction l with
  | nil => intro _ io; rfl
  | cons h t ih =>
    intro hl io
    have hc : ¬ k = (cid, h.name) := by
      intro hc
      have hr : lastMatch cid k (h :: t) none = lastMatch cid k t (some h) := by
        show lastMatch cid k t (if k = (cid, h.name) then some h else none) = _
        rw [if_pos hc]
      rw [hr, lastMatch_acc cid k t (some h)] at hl
      cases hx : lastMatch cid k t none <;> rw [hx] at hl <;> simp at hl
    have ht : lastMatch cid k t none = none := by
      have hr : lastMatch cid k (h :: t) none = lastMatch cid k t none := by
        show lastMatch cid k t (if k = (cid, h.name) then some h else none) = _
        rw [if_neg hc]
      rw [hr] at hl
      exact hl
    show ichain bmc cid k t (if k = (cid, h.name) then idrMerge (found_idrac_ip bmc h) io else io) = io
    rw [if_neg hc]
    exact ih ht io

/-- Characterization of the host-table effect at key `k`: nothing when no
hypervisor writes there; otherwise the pure fields of the last writer combined
with the accumulated idrac merge applied to the previously stored idrac. -/
theorem hEff_char (ver : String) (bmc : String → Option String) (stats : String → Option RStats)
    (cid : String) (k : String × String) :
    ∀ (l : List RHyp) (o : Option HostRow),
      hEff ver bmc stats cid k l o =
        match lastMatch cid k l none with
        | none => o
        | some h2 => some (hostRowWith ver ((stats h2.name).getD emptyStats) h2
            (ichain bmc cid k l (idracOf o))) := by
  intro l
  induction l with
  | nil => intro o; rfl
  | cons h t ih =>
    intro o
    show hEff ver bmc stats cid k t
        (if k = (cid, h.name) then some (syncHostRow ver stats bmc h o) else o) = _
    by_cases hc : k = (cid, h.name)
    · rw [if_pos hc, ih (some (syncHostRow ver stats bmc h o))]
      have h1 : lastMatch cid k (h :: t) none = lastMatch cid k t (some h) := by
        show lastMatch cid k t (if k = (cid, h.name) then some h else none) = _
        rw [if_pos hc]
      have h2 : ichain bmc cid k (h :: t) (idracOf o) =
          ichain bmc cid k t (idrMerge (found_idrac_ip bmc h) (idracOf o)) := by
        show ichain bmc cid k t
            (if k = (cid, h.name) then idrMerge (found_idrac_ip bmc h) (idracOf o) else idracOf o) = _
        rw [if_pos hc]
      rw [h1, h2, lastMatch_acc cid k t (some h)]
      cases hx : lastMatch cid k t none with
      | none =>
        simp only [ichain_id_of_no_match bmc cid k t hx]
        rfl
      | some x => rfl
    · rw [if_neg hc, ih o]
      have h1 : lastMatch cid k (h :: t) none = lastMatch cid k t none := by
        show lastMatch cid k t (if k = (cid, h.name) then some h else none) = _
        rw [if_neg hc]
      have h2 : ichain bmc cid k (h :: t) (idracOf o) = ichain bmc cid k t (idracOf o) := by
        show ichain bmc cid k t
            (if k = (cid, h.name) then idrMerge (found_idrac_ip bmc h) (idracOf o) else idracOf o) = _
        rw [if_neg hc]
      rw [h1, h2]

theorem ichain_absorb (bmc : String → Option String) (cid : String) (k : String × String) :
    ∀ (l : List RHyp) (io : Option String),
      ichain bmc cid k l (ichain bmc cid k l io) = ichain bmc cid k l io := by
  intro l
  induction l with
  | nil => intro io; rfl
  | cons h t ih =>
    intro io
    by_cases hc : k = (cid, h.name)
    · by_cases htr : truthy (found_idrac_ip bmc h) = true
      · have hstep : ∀ x : Option String,
            (if k = (cid, h.name) then idrMerge (found_idrac_ip bmc h) x else x) =
              found_idrac_ip bmc h := by
          intro x
          rw [if_pos hc]
          unfold idrMerge
          rw [if_pos htr]
        have hh : ∀ x : Option String,
            ichain bmc cid k (h :: t) x = ichain bmc cid k t (found_idrac_ip bmc h) := by
          intro x
          show ichain bmc cid k t
            (if k = (cid, h.name) then idrMerge (found_idrac_ip bmc h) x else x) = _
          rw [hstep x]
        rw [hh, hh]
      · have hstep : ∀ x : Option String,
            (if k = (cid, h.name) then idrMerge (found_idrac_ip bmc h) x else x) = x := by
          intro x
          rw [if_pos hc]
          unfold idrMerge
          rw [if_neg htr]
        have hh : ∀ x : Option String, ichain bmc cid k (h :: t) x = ichain bmc cid k t x := by
          intro x
          show ichain bmc cid k t
            (if k = (cid, h.name) then idrMerge (found_idrac_ip bmc h) x else x) = _
          rw [hstep x]
        rw [hh, hh, ih]
    · have hh : ∀ x : Option String, ichain bmc cid k (h :: t) x = ichain bmc cid k t x := by
        intro x
        show ichain bmc cid k t
          (if k = (cid, h.name) then idrMerge (found_idrac_ip bmc h) x else x) = _
        rw [if_neg hc]
      rw [hh, hh, ih]

/-- Replaying the hypervisor loop on its own output leaves the host table
unchanged: the pure fields are recomputed identically and the idrac merge
chain is absorbing. -/
theorem hEff_absorb (ver : String) (bmc : String → Option String) (stats : String → Option RStats)
    (cid : String) (k : String × String) (l : List RHyp) (o : Option HostRow) :
    hEff ver bmc stats cid k l (hEff ver bmc stats cid k l o) = hEff ver bmc stats cid k l o := by
  cases hx : lastMatch cid k l none with
  | none =>
    have h1 : hEff ver bmc stats cid k l o = o := by
      rw [hEff_char, hx]
    rw [h1, h1]
  | some h2 =>
    have h1 : hEff ver bmc stats cid k l o =
        some (hostRowWith ver ((stats h2.name).getD emptyStats) h2
          (ichain bmc cid k l (idracOf o))) := by
      rw [hEff_char, hx]
    have h2e : hEff ver bmc stats cid k l
        (some (hostRowWith ver ((stats h2.name).getD emptyStats) h2
          (ichain bmc cid k l (idracOf o)))) =
        some (hostRowWith ver ((stats h2.name).getD emptyStats) h2
          (ichain bmc cid k l (ichain bmc cid k l (idracOf o)))) := by
      rw [hEff_char, hx]
      rfl
    rw [h1, h2e, ichain_absorb]

/-- The hypervisor loop of cluster `cid` never writes host rows of another
cluster. -/
theorem hEff_offcluster (ver : String) (bmc : String → Option String)
    (stats : String → Option RStats) (cid : String) (k : String × String) (hk : k.1 ≠ cid) :
    ∀ (l : List RHyp) (o : Option HostRow), hEff ver bmc stats cid k l o = o := by
  intro l
  induction l with
  | nil => intro o; rfl
  | cons h t ih =>
    intro o
    show hEff ver bmc stats cid k t
      (if k = (cid, h.name) then some (syncHostRow ver stats bmc h o) else o) = o
    have hc : ¬ k = (cid, h.name) := by
      intro hc
      exact hk (by rw [hc])
    rw [if_neg hc]
    exact ih o

/-- A stored idrac address survives the hypervisor loop. -/
theorem hEff_idrac_ne_none (ver : String) (bmc : String → Option String)
    (stats : String → Option RStats) (cid : String) (k : String × String) :
    ∀ (l : List RHyp) (o : Option HostRow), idracOf o ≠ none →
      idracOf (hEff ver bmc stats cid k l o) ≠ none := by
  intro l
  induction l with
  | nil => intro o ho; exact ho
  | cons h t ih =>
    intro o ho
    show idracOf (hEff ver bmc stats cid k t
      (if k = (cid, h.name) then some (syncHostRow ver stats bmc h o) else o)) ≠ none
    apply ih
    by_cases hc : k = (cid, h.name)
    · rw [if_pos hc]
      show idrMerge (found_idrac_ip bmc h) (idracOf o) ≠ none
      unfold idrMerge
      by_cases htr : truthy (found_idrac_ip bmc h) = true
      · rw [if_pos htr]
        cases hf : found_idrac_ip bmc h with
        | none => rw [hf] at htr; simp [truthy] at htr
        | some a => simp
      · rw [if_neg htr]
        exact ho
    · rw [if_neg hc]
      exact ho

theorem lastMatch_isSome (cid : String) (k : String × String) :
    ∀ (l : List RHyp) (a : Option RHyp), a ≠ none → lastMatch cid k l a ≠ none := by
  intro l
  induction l with
  | nil => intro a ha; exact ha
  | cons h t ih =>
    intro a ha
    show lastMatch cid k t (if k = (cid, h.name) then some h else a) ≠ none
    apply ih
    by_cases hc : k = (cid, h.name)
    · rw [if_pos hc]; simp
    · rw [if_neg hc]; exact ha

theorem lastMatch_mem (cid : String) (k : String × String) :
    ∀ (l : List RHyp) (a : Option RHyp) (h : RHyp), h ∈ l → k = (cid, h.name) →
      lastMatch cid k l a ≠ none := by
  intro l
  induction l with
  | nil => intro a h hm; exact absurd hm (List.not_mem_nil h)
  | cons h0 t ih =>
    intro a h hm hk
    show lastMatch cid k t (if k = (cid, h0.name) then some h0 else a) ≠ none
    rcases List.mem_cons.mp hm with he | hmt
    · subst he
      rw [if_pos hk]
      exact lastMatch_isSome cid k t (some h) (by simp)
    · exact ih _ h hmt hk

/-- Every hypervisor processed by the loop ends with a present host row. -/
theorem hEff_mem_some (ver : String) (bmc : String → Option String)
    (stats : String → Option RStats) (cid : String) (l : List RHyp) (o : Option HostRow)
    (h : RHyp) (hm : h ∈ l) :
    ∃ row, hEff ver bmc stats cid (cid, h.name) l o = some row := by
  rw [hEff_char]
  cases hx : lastMatch cid (cid, h.name) l none with
  | none => exact absurd hx (lastMatch_mem cid _ l none h hm rfl)
  | some h2 => exact ⟨_, rfl⟩

/-! ### Componentwise decomposition of the pass -/

theorem pfold_append {K V : Type} [DecidableEq K] (ws1 ws2 : List (K × V)) (f : K → Option V) :
    pfold (ws1 ++ ws2) f = pfold ws2 (pfold ws1 f) := by
  unfold pfold
  rw [List.foldl_append]

theorem serverFold_status (te : TimeEnv) (cid hn : String) (ivm : String → List RVol) :
    ∀ (srvs : List RServer) (s : Store),
      (srvs.foldl (syncOneServer te cid hn ivm) s).clusterStatus = s.clusterStatus := by
  intro srvs
  induction srvs with
  | nil => intro s; rfl
  | cons srv t ih => intro s; exact ih (syncOneServer te cid hn ivm s srv)

theorem serverFold_hosts (te : TimeEnv) (cid hn : String) (ivm : String → List RVol) :
    ∀ (srvs : List RServer) (s : Store),
      (srvs.foldl (syncOneServer te cid hn ivm) s).hosts = s.hosts := by
  intro srvs
  induction srvs with
  | nil => intro s; rfl
  | cons srv t ih => intro s; exact ih (syncOneServer te cid hn ivm s srv)

theorem serverFold_services (te : TimeEnv) (cid hn : String) (ivm : String → List RVol) :
    ∀ (srvs : List RServer) (s : Store),
      (srvs.foldl (syncOneServer te cid hn ivm) s).services = s.services := by
  intro srvs
  induction srvs with
  | nil => intro s; rfl
  | cons srv t ih => intro s; exact ih (syncOneServer te cid hn ivm s srv)

theorem serverFold_instances (te : TimeEnv) (cid hn : String) (ivm : String → List RVol) :
    ∀ (srvs : List RServer) (s : Store),
      (srvs.foldl (syncOneServer te cid hn ivm) s).instances =
        pfold (srvs.map (fun srv => (srv.sid, instanceRow te cid hn srv))) s.instances := by
  intro srvs
  induction srvs with
  | nil => intro s; rfl
  | cons srv t ih => intro s; exact ih (syncOneServer te cid hn ivm s srv)

theorem serverFold_volumes (te : TimeEnv) (cid hn : String) (ivm : String → List RVol) :
    ∀ (srvs : List RServer) (s : Store),
      (srvs.foldl (syncOneServer te cid hn ivm) s).volumes =
        pfold (srvs.flatMap (fun srv => volWrites srv.sid (ivm srv.sid))) s.volumes := by
  intro srvs
  induction srvs with
  | nil => intro s; rfl
  | cons srv t ih =>
    intro s
    rw [List.foldl_cons, ih (syncOneServer te cid hn ivm s srv)]
    show pfold (t.flatMap (fun srv => volWrites srv.sid (ivm srv.sid)))
        (pfold (volWrites srv.sid (ivm srv.sid)) s.volumes) = _
    rw [List.flatMap_cons, pfold_append]

theorem hypStep_status (te : TimeEnv) (cid ver : String) (bmc : String → Option String)
    (stats : String → Option RStats) (him : String → List RServer) (ivm : String → List RVol)
    (s : Store) (h : RHyp) :
    (hypStep te cid ver bmc stats him ivm s h).clusterStatus = s.clusterStatus :=
  serverFold_status te cid h.name ivm (him h.name) _

theorem hypStep_services (te : TimeEnv) (cid ver : String) (bmc : String → Option String)
    (stats : String → Option RStats) (him : String → List RServer) (ivm : String → List RVol)
    (s : Store) (h : RHyp) :
    (hypStep te cid ver bmc stats him ivm s h).services = s.services :=
  serverFold_services te cid h.name ivm (him h.name) _

theorem hypStep_hosts (te : TimeEnv) (cid ver : String) (bmc : String → Option String)
    (stats : String → Option RStats) (him : String → List RServer) (ivm : String → List RVol)
    (s : Store) (h : RHyp) :
    (hypStep te cid ver bmc stats him ivm s h).hosts =
      pwrite s.hosts (cid, h.name) (syncHostRow ver stats bmc h (s.hosts (cid, h.name))) :=
  serverFold_hosts te cid h.name ivm (him h.name) _

theorem hypStep_instances (te : TimeEnv) (cid ver : String) (bmc : String → Option String)
    (stats : String → Option RStats) (him : String → List RServer) (ivm : String → List RVol)
    (s : Store) (h : RHyp) :
    (hypStep te cid ver bmc stats him ivm s h).instances =
      pfold ((him h.name).map (fun srv => (srv.sid, instanceRow te cid h.name srv)))
        s.instances :=
  serverFold_instances te cid h.name ivm (him h.name) _

theorem hypStep_volumes (te : TimeEnv) (cid ver : String) (bmc : String → Option String)
    (stats : String → Option RStats) (him : String → List RServer) (ivm : String → List RVol)
    (s : Store) (h : RHyp) :
    (hypStep te cid ver bmc stats him ivm s h).volumes =
      pfold ((him h.name).flatMap (fun srv => volWrites srv.sid (ivm srv.sid))) s.volumes :=
  serverFold_volumes te cid h.name ivm (him h.name) _

theorem hypFold_status (te : TimeEnv) (cid ver : String) (bmc : String → Option String)
    (stats : String → Option RStats) (him : String → List RServer) (ivm : String → List RVol) :
    ∀ (l : List RHyp) (s : Store),
      (l.foldl (hypStep te cid ver bmc stats him ivm) s).clusterStatus = s.clusterStatus := by
  intro l
  induction l with
  | nil => intro s; rfl
  | cons h t ih =>
    intro s
    rw [List.foldl_cons, ih, hypStep_status]

theorem hypFold_services (te : TimeEnv) (cid ver : String) (bmc : String → Option String)
    (stats : String → Option RStats) (him : String → List RServer) (ivm : String → List RVol) :
    ∀ (l : List RHyp) (s : Store),
      (l.foldl (hypStep te cid ver bmc stats him ivm) s).services = s.services := by
  intro l
  induction l with
  | nil => intro s; rfl
  | cons h t ih =>
    intro s
    rw [List.foldl_cons, ih, hypStep_services]

theorem hypFold_hosts (te : TimeEnv) (cid ver : String) (bmc : String → Option String)
    (stats : String → Option RStats) (him : String → List RServer) (ivm : String → List RVol) :
    ∀ (l : List RHyp) (s : Store) (k : String × String),
      (l.foldl (hypStep te cid ver bmc stats him ivm) s).hosts k =
        hEff ver bmc stats cid k l (s.hosts k) := by
  intro l
  induction l with
  | nil => intro s k; rfl
  | cons h t ih =>
    intro s k
    rw [List.foldl_cons, ih, hypStep_hosts]
    show hEff ver bmc stats cid k t
        (pwrite s.hosts (cid, h.name) (syncHostRow ver stats bmc h (s.hosts (cid, h.name))) k) =
      hEff ver bmc stats cid k t
        (if k = (cid, h.name) then some (syncHostRow ver stats bmc h (s.hosts k)) else s.hosts k)
    congr 1
    by_cases hc : k = (cid, h.name)
    · subst hc
      simp [pwrite]
    · simp [pwrite, hc]

theorem hypFold_instances (te : TimeEnv) (cid ver : String) (bmc : String → Option String)
    (stats : String → Option RStats) (him : String → List RServer) (ivm : String → List RVol) :
    ∀ (l : List RHyp) (s : Store),
      (l.foldl (hypStep te cid ver bmc stats him ivm) s).instances =
        pfold (l.flatMap (fun h =>
          (him h.name).map (fun srv => (srv.sid, instanceRow te cid h.name srv)))) s.instances := by
  intro l
  induction l with
  | nil => intro s; rfl
  | cons h t ih =>
    intro s
    rw [List.foldl_cons, ih, hypStep_instances, List.flatMap_cons, pfold_append]

theorem hypFold_volumes (te : TimeEnv) (cid ver : String) (bmc : String → Option String)
    (stats : String → Option RStats) (him : String → List RServer) (ivm : String → List RVol) :
    ∀ (l : List RHyp) (s : Store),
      (l.foldl (hypStep te cid ver bmc stats him ivm) s).volumes =
        pfold (l.flatMap (fun h => (him h.name).flatMap
          (fun srv => volWrites srv.sid (ivm srv.sid)))) s.volumes := by
  intro l
  induction l with
  | nil => intro s; rfl
  | cons h t ih =>
    intro s
    rw [List.foldl_cons, ih, hypStep_volumes, List.flatMap_cons, pfold_append]

/-- Outcome and carried store of the hypervisor loop with failure injection:
the processed prefix is folded, and the loop reports an error exactly when the
injected point lies inside (or just after) the list. -/
theorem processHyps_eq (step : Store → RHyp → Store) :
    ∀ (l : List RHyp) (fa : Option Nat) (s : Store),
      processHyps step fa l s =
        if firesB fa l then Except.error ((procList fa l).foldl step s)
        else Except.ok ((procList fa l).foldl step s) := by
  intro l
  induction l with
  | nil =>
    intro fa s
    cases fa with
    | none => rfl
    | some n =>
      cases n with
      | zero => simp [processHyps, firesB, procList]
      | succ m => simp [processHyps, firesB, procList]
  | cons h t ih =>
    intro fa s
    cases fa with
    | none =>
      show processHyps step none t (step s h) = _
      rw [ih none (step s h)]
      simp [firesB, procList]
    | some n =>
      cases n with
      | zero => simp [processHyps, firesB, procList]
      | succ m =>
        show processHyps step (some m) t (step s h) = _
        rw [ih (some m) (step s h)]
        simp [firesB, procList, Nat.succ_le_succ_iff]

/-! ### End-state characterization of one cluster pass -/

/-- Cluster status at the end of its own pass. -/
def passStatus (r : ClusterRemote) : String :=
  if r.connectOk then (if fires r then "offline" else "online") else "offline"

/-- Hypervisors whose host rows the pass upserts. -/
def passHyps (r : ClusterRemote) : List RHyp :=
  if r.connectOk then processedHyps r else []

/-- Instance writes performed by the pass, in order. -/
def passInstWrites (te : TimeEnv) (cid : String) (r : ClusterRemote) :
    List (String × InstRow) :=
  (passHyps r).flatMap (fun h =>
    (build_host_instance_map r.servers h.name).map
      (fun srv => (srv.sid, instanceRow te cid h.name srv)))

/-- Volume writes performed by the pass, in order. -/
def passVolWrites (r : ClusterRemote) : List (String × VolRow) :=
  (passHyps r).flatMap (fun h =>
    (build_host_instance_map r.servers h.name).flatMap
      (fun srv => volWrites srv.sid (build_instance_volume_map r.volumes srv.sid)))

/-- Service writes performed by the pass. -/
def passSvcWrites (cid : String) (r : ClusterRemote) :
    List ((String × String × String) × SvcRow) :=
  if r.connectOk then svcWrites cid r.version r.services else []

theorem setStatus_clusterStatus (cid st : String) (s : Store) :
    (setStatus cid st s).clusterStatus = fun c => if c = cid then st else s.clusterStatus c := rfl

theorem setStatus_hosts (cid st : String) (s : Store) :
    (setStatus cid st s).hosts = s.hosts := rfl

theorem setStatus_instances (cid st : String) (s : Store) :
    (setStatus cid st s).instances = s.instances := rfl

theorem setStatus_volumes (cid st : String) (s : Store) :
    (setStatus cid st s).volumes = s.volumes := rfl

theorem setStatus_services (cid st : String) (s : Store) :
    (setStatus cid st s).services = s.services := rfl

theorem clusterFold_status (te : TimeEnv) (cid : String) (r : ClusterRemote) :
    ∀ (l : List RHyp) (s : Store),
      (l.foldl (clusterStep te cid r) s).clusterStatus = s.clusterStatus :=
  hypFold_status te cid r.version (build_bmc_map r.bmcNodes) (build_stats_map r.statsList)
    (build_host_instance_map r.servers) (build_instance_volume_map r.volumes)

theorem clusterFold_services (te : TimeEnv) (cid : String) (r : ClusterRemote) :
    ∀ (l : List RHyp) (s : Store),
      (l.foldl (clusterStep te cid r) s).services = s.services :=
  hypFold_services te cid r.version (build_bmc_map r.bmcNodes) (build_stats_map r.statsList)
    (build_host_instance_map r.servers) (build_instance_volume_map r.volumes)

theorem clusterFold_hosts (te : TimeEnv) (cid : String) (r : ClusterRemote) :
    ∀ (l : List RHyp) (s : Store) (k : String × String),
      (l.foldl (clusterStep te cid r) s).hosts k =
        hEff r.version (build_bmc_map r.bmcNodes) (build_stats_map r.statsList) cid k l
          (s.hosts k) :=
  hypFold_hosts te cid r.version (build_bmc_map r.bmcNodes) (build_stats_map r.statsList)
    (build_host_instance_map r.servers) (build_instance_volume_map r.volumes)

theorem clusterFold_instances (te : TimeEnv) (cid : String) (r : ClusterRemote) :
    ∀ (l : List RHyp) (s : Store),
      (l.foldl (clusterStep te cid r) s).instances =
        pfold (l.flatMap (fun h => (build_host_instance_map r.servers h.name).map
          (fun srv => (srv.sid, instanceRow te cid h.name srv)))) s.instances :=
  hypFold_instances te cid r.version (build_bmc_map r.bmcNodes) (build_stats_map r.statsList)
    (build_host_instance_map r.servers) (build_instance_volume_map r.volumes)

theorem clusterFold_volumes (te : TimeEnv) (cid : String) (r : ClusterRemote) :
    ∀ (l : List RHyp) (s : Store),
      (l.foldl (clusterStep te cid r) s).volumes =
        pfold (l.flatMap (fun h => (build_host_instance_map r.servers h.name).flatMap
          (fun srv => volWrites srv.sid (build_instance_volume_map r.volumes srv.sid))))
          s.volumes :=
  hypFold_volumes te cid r.version (build_bmc_map r.bmcNodes) (build_stats_map r.statsList)
    (build_host_instance_map r.servers) (build_instance_volume_map r.volumes)

theorem pass_false_eq (te : TimeEnv) (cid : String) (r : ClusterRemote) (s : Store)
    (hcon : r.connectOk = false) :
    sync_cluster_pass te cid r s = setStatus cid "offline" s := by
  unfold sync_cluster_pass
  rw [hcon]
  rfl

theorem pass_true_eq (te : TimeEnv) (cid : String) (r : ClusterRemote) (s : Store)
    (hcon : r.connectOk = true) :
    sync_cluster_pass te cid r s =
      (if firesB r.failAt r.hypervisors then
        setStatus cid "offline"
          ((procList r.failAt r.hypervisors).foldl (clusterStep te cid r)
            { setStatus cid "online" s with
              services := pfold (svcWrites cid r.version r.services) s.services })
      else
        (procList r.failAt r.hypervisors).foldl (clusterStep te cid r)
          { setStatus cid "online" s with
            services := pfold (svcWrites cid r.version r.services) s.services }) := by
  have hdef : sync_cluster_pass te cid r s =
      match processHyps (clusterStep te cid r) r.failAt r.hypervisors
        { setStatus cid "online" s with
          services := pfold (svcWrites cid r.version r.services) s.services } with
      | Except.ok s3 => s3
      | Except.error s3 => setStatus cid "offline" s3 := by
    unfold sync_cluster_pass
    rw [hcon]
    rfl
  rw [hdef, processHyps_eq]
  by_cases hf : firesB r.failAt r.hypervisors = true
  · rw [if_pos hf, if_pos hf]
  · rw [if_neg hf, if_neg hf]

/-- Status component of one cluster pass. -/
theorem pass_clusterStatus (te : TimeEnv) (cid : String) (r : ClusterRemote) (s : Store) :
    (sync_cluster_pass te cid r s).clusterStatus =
      fun c => if c = cid then passStatus r else s.clusterStatus c := by
  cases hcon : r.connectOk with
  | false =>
    rw [pass_false_eq te cid r s hcon, setStatus_clusterStatus]
    funext c
    simp [passStatus, hcon]
  | true =>
    rw [pass_true_eq te cid r s hcon]
    by_cases hf : firesB r.failAt r.hypervisors = true
    · rw [if_pos hf, setStatus_clusterStatus]
      funext c
      rw [clusterFold_status]
      show (if c = cid then "offline" else if c = cid then "online" else s.clusterStatus c) = _
      by_cases hcc : c = cid <;> simp [hcc, passStatus, fires, hcon, hf]
    · rw [if_neg hf]
      funext c
      rw [clusterFold_status]
      show (if c = cid then "online" else s.clusterStatus c) = _
      by_cases hcc : c = cid <;> simp [hcc, passStatus, fires, hcon, hf]

/-- Host-table component of one cluster pass, pointwise. -/
theorem pass_hosts (te : TimeEnv) (cid : String) (r : ClusterRemote) (s : Store)
    (k : String × String) :
    (sync_cluster_pass te cid r s).hosts k =
      hEff r.version (build_bmc_map r.bmcNodes) (build_stats_map r.statsList) cid k
        (passHyps r) (s.hosts k) := by
  cases hcon : r.connectOk with
  | false =>
    rw [pass_false_eq te cid r s hcon, setStatus_hosts]
    simp [passHyps, hcon, hEff]
  | true =>
    rw [pass_true_eq te cid r s hcon]
    have hph : passHyps r = procList r.failAt r.hypervisors := by
      simp [passHyps, hcon, processedHyps]
    by_cases hf : firesB r.failAt r.hypervisors = true
    · rw [if_pos hf, setStatus_hosts, clusterFold_hosts, hph]
      rfl
    · rw [if_neg hf, clusterFold_hosts, hph]
      rfl

/-- Instance-table component of one cluster pass. -/
theorem pass_instances (te : TimeEnv) (cid : String) (r : ClusterRemote) (s : Store) :
    (sync_cluster_pass te cid r s).instances = pfold (passInstWrites te cid r) s.instances := by
  cases hcon : r.connectOk with
  | false =>
    rw [pass_false_eq te cid r s hcon, setStatus_instances]
    simp [passInstWrites, passHyps, hcon, pfold]
  | true =>
    rw [pass_true_eq te cid r s hcon]
    have hph : passHyps r = procList r.failAt r.hypervisors := by
      simp [passHyps, hcon, processedHyps]
    by_cases hf : firesB r.failAt r.hypervisors = true
    · rw [if_pos hf, setStatus_instances, clusterFold_instances]
      rw [passInstWrites, hph]
      rfl
    · rw [if_neg hf, clusterFold_instances]
      rw [passInstWrites, hph]
      rfl

/-- Volume-table component of one cluster pass. -/
theorem pass_volumes (te : TimeEnv) (cid : String) (r : ClusterRemote) (s : Store) :
    (sync_cluster_pass te cid r s).volumes = pfold (passVolWrites r) s.volumes := by
  cases hcon : r.connectOk with
  | false =>
    rw [pass_false_eq te cid r s hcon, setStatus_volumes]
    simp [passVolWrites, passHyps, hcon, pfold]
  | true =>
    rw [pass_true_eq te cid r s hcon]
    have hph : passHyps r = procList r.failAt r.hypervisors := by
      simp [passHyps, hcon, processedHyps]
    by_cases hf : firesB r.failAt r.hypervisors = true
    · rw [if_pos hf, setStatus_volumes, clusterFold_volumes]
      rw [passVolWrites, hph]
      rfl
    · rw [if_neg hf, clusterFold_volumes]
      rw [passVolWrites, hph]
      rfl

/-- Service-table component of one cluster pass. -/
theorem pass_services (te : TimeEnv) (cid : String) (r : ClusterRemote) (s : Store) :
    (sync_cluster_pass te cid r s).services = pfold (passSvcWrites cid r) s.services := by
  cases hcon : r.connectOk with
  | false =>
    rw [pass_false_eq te cid r s hcon, setStatus_services]
    simp [passSvcWrites, hcon, pfold]
  | true =>
    rw [pass_true_eq te cid r s hcon]
    have hps : passSvcWrites cid r = svcWrites cid r.version r.services := by
      simp [passSvcWrites, hcon]
    by_cases hf : firesB r.failAt r.hypervisors = true
    · rw [if_pos hf, setStatus_services, clusterFold_services, hps]
    · rw [if_neg hf, clusterFold_services, hps]

/-- Equality of stores from equality of all five components. -/
theorem Store.eq_parts {a b : Store}
    (h1 : a.clusterStatus = b.clusterStatus) (h2 : a.hosts = b.hosts)
    (h3 : a.instances = b.instances) (h4 : a.volumes = b.volumes)
    (h5 : a.services = b.services) : a = b := by
  cases a
  cases b
  simp_all

/-! ### Claim C1 -/

/-- C1: for every cluster whose remote state is unchanged between two
consecutive full reconciliation passes, running the pass twice produces
identical persisted rows (same row counts and field values for hosts,
instances, volumes, and services — here, literally the same store, which also
fixes the cluster status).  Monotonic auto-now timestamps and the append-only
AuditLog are outside the modelled store. -/
theorem C1_pass_idempotent (te : TimeEnv) (cid : String) (r : ClusterRemote) (s : Store) :
    sync_cluster_pass te cid r (sync_cluster_pass te cid r s) = sync_cluster_pass te cid r s := by
  apply Store.eq_parts
  · rw [pass_clusterStatus, pass_clusterStatus]
    funext c
    by_cases hcc : c = cid <;> simp [hcc]
  · funext k
    rw [pass_hosts te cid r (sync_cluster_pass te cid r s) k, pass_hosts te cid r s k,
      hEff_absorb]
  · rw [pass_instances te cid r (sync_cluster_pass te cid r s), pass_instances te cid r s,
      pfold_idem]
  · rw [pass_volumes te cid r (sync_cluster_pass te cid r s), pass_volumes te cid r s,
      pfold_idem]
  · rw [pass_services te cid r (sync_cluster_pass te cid r s), pass_services te cid r s,
      pfold_idem]

/-! ### Claim C2 -/

theorem syncInv_preserve (te : TimeEnv) :
    ∀ (cs : List (String × ClusterRemote)) (s : Store) (cid : String),
      cid ∉ cs.map Prod.fst →
      (sync_inventory te cs s).clusterStatus cid = s.clusterStatus cid ∧
      ∀ hn, (sync_inventory te cs s).hosts (cid, hn) = s.hosts (cid, hn) := by
  intro cs
  induction cs with
  | nil => intro s cid _; exact ⟨rfl, fun _ => rfl⟩
  | cons c t ih =>
    intro s cid hnotin
    have hne : cid ≠ c.1 := by
      intro he
      exact hnotin (by simp [he])
    have hrest : cid ∉ t.map Prod.fst := by
      intro hmem
      exact hnotin (by simp [hmem])
    have h1 := ih (sync_cluster_pass te c.1 c.2 s) cid hrest
    constructor
    · rw [show sync_inventory te (c :: t) s =
          sync_inventory te t (sync_cluster_pass te c.1 c.2 s) from rfl,
        h1.1, pass_clusterStatus]
      simp [hne]
    · intro hn
      rw [show sync_inventory te (c :: t) s =
          sync_inventory te t (sync_cluster_pass te c.1 c.2 s) from rfl,
        h1.2 hn, pass_hosts,
        hEff_offcluster c.2.version (build_bmc_map c.2.bmcNodes) (build_stats_map c.2.statsList)
          c.1 (cid, hn) hne]

theorem syncInv_member (te : TimeEnv) :
    ∀ (cs : List (String × ClusterRemote)) (s : Store) (cid : String) (r : ClusterRemote),
      (cs.map Prod.fst).Nodup → (cid, r) ∈ cs →
      (sync_inventory te cs s).clusterStatus cid = passStatus r ∧
      ∀ hn, (sync_inventory te cs s).hosts (cid, hn) =
        hEff r.version (build_bmc_map r.bmcNodes) (build_stats_map r.statsList) cid (cid, hn)
          (passHyps r) (s.hosts (cid, hn)) := by
  intro cs
  induction cs with
  | nil => intro s cid r _ hmem; exact absurd hmem (List.not_mem_nil _)
  | cons c t ih =>
    intro s cid r hnd hmem
    rw [List.map_cons] at hnd
    have hnd0 := List.nodup_cons.mp hnd
    rcases List.mem_cons.mp hmem with he | hmt
    · subst he
      have hp := syncInv_preserve te t (sync_cluster_pass te cid r s) cid hnd0.1
      constructor
      · rw [show sync_inventory te ((cid, r) :: t) s =
            sync_inventory te t (sync_cluster_pass te cid r s) from rfl,
          hp.1, pass_clusterStatus]
        simp
      · intro hn
        rw [show sync_inventory te ((cid, r) :: t) s =
            sync_inventory te t (sync_cluster_pass te cid r s) from rfl,
          hp.2 hn, pass_hosts]
    · have hcid_ne : cid ≠ c.1 := by
        intro he2
        apply hnd0.1
        rw [← he2]
        exact List.mem_map_of_mem Prod.fst hmt
      have hrec := ih (sync_cluster_pass te c.1 c.2 s) cid r hnd0.2 hmt
      constructor
      · rw [show sync_inventory te (c :: t) s =
            sync_inventory te t (sync_cluster_pass te c.1 c.2 s) from rfl,
          hrec.1]
      · intro hn
        rw [show sync_inventory te (c :: t) s =
            sync_inventory te t (sync_cluster_pass te c.1 c.2 s) from rfl,
          hrec.2 hn, pass_hosts,
          hEff_offcluster c.2.version (build_bmc_map c.2.bmcNodes) (build_stats_map c.2.statsList)
            c.1 (cid, hn) hcid_ne]

/-- C2: an uncaught exception in one cluster's pass flips that cluster's
status to offline and processing continues with the others: a cluster whose
pass completes is online, each cluster's final host rows are determined by its
own remote state and the initial store alone (so no other cluster's exception
prevents its reconciliation), and the hosts upserted before the failure point
of a failing pass remain persisted. -/
theorem C2_failure_isolation (te : TimeEnv) (cs : List (String × ClusterRemote)) (s : Store)
    (cid : String) (r : ClusterRemote)
    (hnd : (cs.map Prod.fst).Nodup) (hmem : (cid, r) ∈ cs) :
    ((r.connectOk = true ∧ fires r = true) →
      (sync_inventory te cs s).clusterStatus cid = "offline") ∧
    ((r.connectOk = true ∧ fires r = false) →
      (sync_inventory te cs s).clusterStatus cid = "online") ∧
    (∀ hn, (sync_inventory te cs s).hosts (cid, hn) =
      hEff r.version (build_bmc_map r.bmcNodes) (build_stats_map r.statsList) cid (cid, hn)
        (passHyps r) (s.hosts (cid, hn))) ∧
    (r.connectOk = true → ∀ h ∈ processedHyps r,
      ∃ row, (sync_inventory te cs s).hosts (cid, h.name) = some row) := by
  have hm := syncInv_member te cs s cid r hnd hmem
  refine ⟨?_, ?_, hm.2, ?_⟩
  · rintro ⟨hcon, hf⟩
    rw [hm.1]
    simp [passStatus, hcon, hf]
  · rintro ⟨hcon, hf⟩
    rw [hm.1]
    simp [passStatus, hcon, hf]
  · intro hcon h hproc
    rw [hm.2 h.name]
    have hpass : passHyps r = processedHyps r := by simp [passHyps, hcon]
    rw [hpass]
    exact hEff_mem_some r.version _ _ cid (processedHyps r) _ h hproc

/-- Trivial timestamp toolbox for concrete runs: every string parses to
itself and is already timezone-aware. -/
def te0 : TimeEnv := ⟨fun t => some t, fun _ => false, fun t => t⟩

/-- Concrete hypervisor records for witness runs. -/
def hypA : RHyp := ⟨"hA", "idA", 4, 1, 1024, 256, "10.0.0.1", "up", "enabled"⟩

def hypB : RHyp := ⟨"hB", "idB", 8, 2, 2048, 512, "10.0.0.2", "up", "enabled"⟩

def hypC : RHyp := ⟨"hC", "idC", 16, 4, 4096, 768, "10.0.1.1", "up", "enabled"⟩

/-- Remote state of a cluster whose pass raises after upserting `hypA`. -/
def rFail : ClusterRemote :=
  ⟨true, "V1", [], [], [], [], [], [hypA, hypB], some 1⟩

/-- Remote state of a healthy cluster. -/
def rGood : ClusterRemote :=
  ⟨true, "V2", [], [], [], [], [], [hypC], none⟩

/-- Empty initial store. -/
def s0 : Store :=
  ⟨fun _ => "unknown", fun _ => none, fun _ => none, fun _ => none, fun _ => none⟩

theorem C2_failure_isolation_witness :
    (sync_inventory te0 [("c1", rFail), ("c2", rGood)] s0).clusterStatus "c1" = "offline" ∧
    (sync_inventory te0 [("c1", rFail), ("c2", rGood)] s0).clusterStatus "c2" = "online" ∧
    (∃ row, (sync_inventory te0 [("c1", rFail), ("c2", rGood)] s0).hosts ("c1", "hA") =
      some row) := by
  have h1 := C2_failure_isolation te0 [("c1", rFail), ("c2", rGood)] s0 "c1" rFail
    (by decide) (by simp)
  have h2 := C2_failure_isolation te0 [("c1", rFail), ("c2", rGood)] s0 "c2" rGood
    (by decide) (by simp)
  refine ⟨h1.1 ⟨rfl, by decide⟩, h2.2.1 ⟨rfl, by decide⟩, ?_⟩
  have := h1.2.2.2 rfl hypA (by decide)
  simpa using this

/-! ### Claim C3 -/

/-- Capacity merge as worded by the claim: bulk stats map value, else the
connector's own summary field, else the existing stored value, else zero.
Stated from the claim for comparison with the code's `syncHostRow`. -/
def claimMergeNat (bulk : Option Nat) (summary : Nat) (stored : Option Nat) : Nat :=
  pyOrNat bulk (if summary = 0 then (match stored with | some v => v | none => 0) else summary)

/-- Previously stored host row with nonzero capacity values. -/
def oldHostRow : HostRow :=
  ⟨"10.0.0.9", 42, 7, 4242, 99, "up", "enabled", "V0", some "9.9.9.9"⟩

/-- Hypervisor summary whose every capacity field is falsy. -/
def hyp0 : RHyp := ⟨"hA", "idA", 0, 0, 0, 0, "", "up", "enabled"⟩

/-- Remote state reporting only `hyp0`, with an empty bulk stats map. -/
def r3 : ClusterRemote := ⟨true, "V1", [], [], [], [], [], [hyp0], none⟩

/-- Store already holding `oldHostRow` for the host that `hyp0` reports. -/
def s3pre : Store :=
  ⟨fun _ => "unknown", fun k => if k = ("c1", "hA") then some oldHostRow else none,
    fun _ => none, fun _ => none, fun _ => none⟩

/-- C3 counterexample: with the bulk stats map empty and the connector summary
field zero, the pass overwrites the stored cpu_count 42 with 0, while the
claim's merge precedence would keep 42.  (The idrac address, by contrast, is
kept.) -/
theorem C3_counterexample :
    (sync_cluster_pass te0 "c1" r3 s3pre).hosts ("c1", "hA") =
      some ⟨"0.0.0.0", 0, 0, 0, 0, "up", "enabled", "V1", some "9.9.9.9"⟩ ∧
    claimMergeNat none 0 (some 42) = 42 := by
  constructor
  · decide
  · decide

/-- C3 as amended: each capacity field of an upserted host row is the bulk
stats map value if truthy, else the connector summary field, else zero; the
previously stored value is never consulted for capacity fields and is
overwritten.  First conjunct ties the row to the per-hypervisor upsert of the
pass; the remaining conjuncts give the field equations, independent of the
stored row `old`. -/
theorem C3_amended (te : TimeEnv) (cid ver : String) (bmc : String → Option String)
    (stats : String → Option RStats) (him : String → List RServer) (ivm : String → List RVol)
    (s : Store) (h : RHyp) :
    (hypStep te cid ver bmc stats him ivm s h).hosts (cid, h.name) =
      some (syncHostRow ver stats bmc h (s.hosts (cid, h.name))) ∧
    (∀ old : Option HostRow,
      (syncHostRow ver stats bmc h old).cpu_count =
        pyOrNat ((stats h.name).getD emptyStats).vcpus h.vcpus ∧
      (syncHostRow ver stats bmc h old).vcpus_used =
        pyOrNat ((stats h.name).getD emptyStats).vcpus_used h.vcpus_used ∧
      (syncHostRow ver stats bmc h old).memory_mb =
        pyOrNat ((stats h.name).getD emptyStats).memory_mb h.memory_size ∧
      (syncHostRow ver stats bmc h old).memory_mb_used =
        pyOrNat ((stats h.name).getD emptyStats).memory_mb_used h.memory_used) := by
  constructor
  · rw [hypStep_hosts]
    exact pwrite_self s.hosts (cid, h.name) _
  · intro old
    exact ⟨rfl, rfl, rfl, rfl⟩

/-! ### Claim C7 -/

/-- C7: the stored BMC address is never cleared once discovered.  First
conjunct: the upserted row's idrac_ip is the address found this pass when that
is truthy, and the previously stored value otherwise.  Second conjunct: a host
row whose idrac_ip is present keeps a present idrac_ip across any full cluster
pass. -/
theorem C7_idrac_never_cleared :
    (∀ (ver : String) (stats : String → Option RStats) (bmc : String → Option String)
      (h : RHyp) (old : Option HostRow),
      (syncHostRow ver stats bmc h old).idrac_ip =
        if truthy (found_idrac_ip bmc h) then found_idrac_ip bmc h
        else old.bind HostRow.idrac_ip) ∧
    (∀ (te : TimeEnv) (cid : String) (r : ClusterRemote) (s : Store) (hn v : String),
      (s.hosts (cid, hn)).bind HostRow.idrac_ip = some v →
      ((sync_cluster_pass te cid r s).hosts (cid, hn)).bind HostRow.idrac_ip ≠ none) := by
  constructor
  · intro ver stats bmc h old
    rfl
  · intro te cid r s hn v hv
    rw [pass_hosts]
    exact hEff_idrac_ne_none r.version (build_bmc_map r.bmcNodes) (build_stats_map r.statsList)
      cid (cid, hn) (passHyps r) (s.hosts (cid, hn)) (by simp [idracOf, hv])

theorem C7_idrac_never_cleared_witness :
    ((sync_cluster_pass te0 "c1" r3 s3pre).hosts ("c1", "hA")).bind HostRow.idrac_ip ≠ none :=
  C7_idrac_never_cleared.2 te0 "c1" r3 s3pre "hA" "9.9.9.9" (by decide)

/-! ### Claim C8 -/

/-- Device path as worded by the claim: from the first attachment entry of the
volume that matches the instance being synced.  Stated from the claim for
comparison with the code's `volRow`. -/
def first_matching_device (sid : String) (v : RVol) : Option String :=
  (v.attachments.find? (fun a => decide (a.server_id = some sid))).map RAttach.device

/-- Multi-attach volume whose first attachment belongs to another server. -/
def vol8 : RVol :=
  ⟨"vol-1", "data-disk", 10, [⟨some "srv-B", "/dev/vdb"⟩, ⟨some "srv-A", "/dev/vda"⟩],
    "in-use", true⟩

/-- Server record for the instance being synced. -/
def srvA : RServer :=
  ⟨"srv-A", "vm-a", "ACTIVE", some "m1.small", "proj-1", "user-1", [], RImage.absent,
    "", "", "hA", "hA"⟩

/-- Remote state with one hypervisor, one server on it, one multi-attach
volume. -/
def r8 : ClusterRemote := ⟨true, "V1", [], [], [], [srvA], [vol8], [hypA], none⟩

/-- C8 counterexample: the volume is grouped under `srv-A`, yet the stored
device comes from `vol.attachments[0]`, which belongs to `srv-B`; the first
attachment matching the synced instance has a different device. -/
theorem C8_counterexample :
    build_instance_volume_map [vol8] "srv-A" = [vol8] ∧
    (sync_cluster_pass te0 "c1" r8 s0).volumes "vol-1" =
      some ⟨"srv-A", "data-disk", 10, "/dev/vdb", "in-use", true⟩ ∧
    first_matching_device "srv-A" vol8 = some "/dev/vda" := by
  refine ⟨by decide, by decide, by decide⟩

/-- C8 as amended: the device stored for a volume is taken from the volume's
first attachment entry overall (empty when there is none), regardless of which
instance that attachment belongs to; the per-server sync step upserts exactly
the rows of `volWrites`. -/
theorem C8_amended :
    (∀ (sid : String) (v : RVol),
      (volRow sid v).device = match v.attachments with | [] => "" | a :: _ => a.device) ∧
    (∀ (te : TimeEnv) (cid hn : String) (ivm : String → List RVol) (s : Store) (srv : RServer),
      (syncOneServer te cid hn ivm s srv).volumes =
        pfold (volWrites srv.sid (ivm srv.sid)) s.volumes) :=
  ⟨fun _ _ => rfl, fun _ _ _ _ _ _ => rfl⟩

/-! ### Claim C9 -/

/-- Normalization as worded by the claim: remove one leading scheme prefix,
then drop everything from the first slash.  Stated from the claim for
comparison with the code's `normalizeBmc`. -/
def claimNormalize (s : String) : String :=
  let l := s.data
  let l1 :=
    if "https://".data.isPrefixOf l then l.drop 8
    else if "http://".data.isPrefixOf l then l.drop 7
    else l
  String.mk (l1.takeWhile (fun c => c ≠ '/'))

/-- Node whose BMC address contains a scheme substring that is not a leading
prefix. -/
def node9 : RNode := ⟨some "n1", "uuid-1", some "i1", ⟨some "xhttps://y", none, none⟩⟩

/-- Two nodes registering the same key with different addresses. -/
def node9a : RNode := ⟨some "shared", "idA", none, ⟨some "1.1.1.1", none, none⟩⟩

def node9b : RNode := ⟨none, "shared", none, ⟨some "2.2.2.2", none, none⟩⟩

/-- C9 counterexample: the stored address deletes every scheme occurrence, not
only a leading one ("xy", where the claim's normalization yields "xhttps:");
and a later node overwrites an earlier node's key, so the claim's "stored
under every key the node registers" fails without a disjointness proviso. -/
theorem C9_counterexample :
    build_bmc_map [node9] "n1" = some "xy" ∧
    claimNormalize "xhttps://y" = "xhttps:" ∧
    ("xy" : String) ≠ "xhttps:" ∧
    build_bmc_map [node9a, node9b] "shared" = some "2.2.2.2" ∧
    normalizeBmc "1.1.1.1" = "1.1.1.1" := by
  refine ⟨by decide, by decide, by decide, by decide, by decide⟩

theorem nodeStep_other (mm : String → Option String) (m : RNode) (k : String)
    (hk : k ∉ nodeKeys m) : nodeStep mm m k = mm k := by
  cases ha : rawAddress m with
  | none =>
    unfold nodeStep
    rw [ha]
  | some a =>
    unfold nodeKeys at hk
    rw [ha] at hk
    unfold nodeStep
    rw [ha]
    simp only [List.mem_append, not_or] at hk
    cases hnm : m.name <;> cases hni : m.instance_id <;>
      simp_all [pwrite] <;>
      split_ifs <;>
      simp_all [pwrite]

theorem foldNodes_other :
    ∀ (post : List RNode) (mm : String → Option String) (k : String),
      (∀ m ∈ post, k ∉ nodeKeys m) → post.foldl nodeStep mm k = mm k := by
  intro post
  induction post with
  | nil => intro mm k _; rfl
  | cons m t ih =>
    intro mm k hall
    rw [List.foldl_cons,
      ih (nodeStep mm m) k (fun m2 hm2 => hall m2 (List.mem_cons_of_mem m hm2)),
      nodeStep_other mm m k (hall m (List.mem_cons_self m t))]

theorem nodeStep_own (mm : String → Option String) (n : RNode) (a : String)
    (ha : rawAddress n = some a) :
    ∀ k ∈ nodeKeys n, nodeStep mm n k = some (normalizeBmc a) := by
  intro k hk
  unfold nodeKeys at hk
  rw [ha] at hk
  unfold nodeStep
  rw [ha]
  simp only [List.mem_append] at hk
  cases hnm : n.name <;> cases hni : n.instance_id <;>
    simp_all [pwrite] <;>
    split_ifs <;>
    simp_all [pwrite] <;>
    tauto

/-- C9 as amended: the stored address is the raw address with every occurrence
of "https://" and then "http://" deleted and everything from the first slash
of the result dropped (`normalizeBmc`); it is stored under every key the node
registers — name, identifier, instance identifier — provided no later node
registers the same key. -/
theorem C9_amended (nodes pre post : List RNode) (n : RNode) (a : String)
    (ha : rawAddress n = some a) (hsplit : nodes = pre ++ n :: post)
    (hdisj : ∀ m ∈ post, ∀ k ∈ nodeKeys n, k ∉ nodeKeys m) :
    ∀ k ∈ nodeKeys n, build_bmc_map nodes k = some (normalizeBmc a) := by
  intro k hk
  subst hsplit
  unfold build_bmc_map
  rw [List.foldl_append, List.foldl_cons,
    foldNodes_other post _ k (fun m hm => hdisj m hm k hk)]
  exact nodeStep_own _ n a ha k hk

/-- Node with a scheme-and-path BMC address registering all three keys. -/
def node9w : RNode :=
  ⟨some "n1", "uuid-1", some "inst-1", ⟨some "https://1.2.3.4/redfish/v1", none, none⟩⟩

def node9post : RNode := ⟨some "n2", "uuid-2", none, ⟨none, some "5.6.7.8", none⟩⟩

theorem C9_amended_witness :
    build_bmc_map [node9w, node9post] "n1" = some "1.2.3.4" := by
  have h := C9_amended [node9w, node9post] [] [node9post] node9w "https://1.2.3.4/redfish/v1"
    (by decide) rfl (by decide) "n1" (by decide)
  rw [h]
  decide

/-! ### Claim C4 -/

/-- Timestamp toolbox in which every string is unparsable, standing for
`parse_datetime` applied to a malformed timestamp. -/
def unparsable : TimeEnv := ⟨fun _ => none, fun _ => true, fun t => t⟩

/-- C4: on a present but unparsable launch timestamp, the sync task's own
timestamp handling (tasks.py:182-186) raises — `timezone.is_naive(None)` —
which the surrounding per-cluster handler turns into an aborted, offline-marked
pass; the guarded service variant (inventory_service.py:103-108), matching the
claim and the spec, stores an absent field and continues.  An absent timestamp
is handled fine by both. -/
theorem C4_malformed_timestamp :
    launchedAtTask unparsable "not-a-timestamp" = Except.error () ∧
    launchedAtService unparsable "not-a-timestamp" = none ∧
    launchedAtTask unparsable "" = Except.ok none :=
  ⟨rfl, rfl, rfl⟩

/-! ### Claim C10 -/

/-- Cluster.get_password (models.py:87-92): the empty string for an empty
stored password, and the empty string whenever decryption fails — `decrypt`
abstracts `get_cipher().decrypt(...)`, with `none` standing for any raised
exception, which the source catches. -/
def get_password (decrypt : String → Option String) (password : String) : String :=
  if password = "" then ""
  else
    match decrypt password with
    | some s => s
    | none => ""

/-- C10: get_password returns the empty string whenever the stored password is
empty or decryption fails; it is total, so it never raises. -/
theorem C10_get_password_empty (decrypt : String → Option String) (pw : String)
    (h : pw = "" ∨ decrypt pw = none) : get_password decrypt pw = "" := by
  rcases h with h | h
  · rw [h]
    rfl
  · unfold get_password
    by_cases hp : pw = ""
    · rw [if_pos hp]
    · rw [if_neg hp, h]

theorem C10_get_password_empty_witness :
    get_password (fun _ => none) "corrupted-ciphertext" = "" :=
  C10_get_password_empty (fun _ => none) "corrupted-ciphertext" (Or.inr rfl)

/-! ### Cost Accounting Engine (cost_service.py), over exact rationals

The source computes with Python floats and `round(x, 2)` (round-half-to-even);
the embedding uses exact rationals with the same rounding rule.  On the
decimal inputs of the claims the float and rational computations round to the
same published values. -/

/-- Python `round` to an integer: round half to even. -/
def round_half_even (q : ℚ) : ℤ :=
  if q - ⌊q⌋ < 1/2 then ⌊q⌋
  else if 1/2 < q - ⌊q⌋ then ⌊q⌋ + 1
  else if ⌊q⌋ % 2 = 0 then ⌊q⌋ else ⌊q⌋ + 1

/-- Python `round(q, 2)`. -/
def pyRound2 (q : ℚ) : ℚ := (round_half_even (q * 100) : ℚ) / 100

theorem round_half_even_intCast (n : ℤ) : round_half_even (n : ℚ) = n := by
  unfold round_half_even
  rw [Int.floor_intCast]
  norm_num

theorem pyRound2_cents (n : ℤ) : pyRound2 ((n : ℚ) / 100) = (n : ℚ) / 100 := by
  unfold pyRound2
  have h : ((n : ℚ) / 100) * 100 = (n : ℚ) := by
    field_simp
  rw [h, round_half_even_intCast]


/-- PortalSettings fields read by the cost engine (models.py:25-26). -/
structure CostSettings where
  electricity_cost : ℚ
  pue : ℚ
deriving DecidableEq

/-- ServerCostProfile (models.py:40-44). -/
structure ServerCostProfile where
  monthly_amortization : ℚ
  average_watts : ℚ
deriving DecidableEq

/-- PhysicalHost fields read by the cost engine. -/
structure CHost where
  server_model : Option ServerCostProfile
  cpu_count : Nat
  cluster : String
deriving DecidableEq

/-- Flavor fields read by the cost engine (models.py:97-104). -/
structure CFlavor where
  name : String
  cluster : String
  vcpus : Nat
deriving DecidableEq

/-- Instance fields read by the cost engine. -/
structure CInstance where
  host : Option CHost
  flavor_name : String
  project_id : String
deriving DecidableEq

/-- Monthly power cost of a host profile (cost_service.py:45-49):
`(average_watts / 1000) * 24 * 30 * electricity_cost * pue`. -/
def power_cost (p : ServerCostProfile) (st : CostSettings) : ℚ :=
  p.average_watts / 1000 * 24 * 30 * st.electricity_cost * st.pue

/-- Total monthly host cost (cost_service.py:52): amortization plus power. -/
def host_total_cost (p : ServerCostProfile) (st : CostSettings) : ℚ :=
  p.monthly_amortization + power_cost p st

/-- CostService._get_instance_vcpus (cost_service.py:65-74): first Flavor row
matching the instance's denormalized flavor name within the same cluster,
defaulting to 1 vCPU. -/
def get_instance_vcpus (flavors : List CFlavor) (inst : CInstance) (cluster : String) : Nat :=
  match flavors.find? (fun f => f.name == inst.flavor_name && f.cluster == cluster) with
  | some f => f.vcpus
  | none => 1

/-- CostService.calculate_instance_cost (cost_service.py:17-62): absent
without a host or without a cost profile; 0 on a zero-cpu host; otherwise
cost-per-vCPU times the flavor's vCPU count, rounded to 2 decimals. -/
def calculate_instance_cost (flavors : List CFlavor) (st : CostSettings)
    (inst : CInstance) : Option ℚ :=
  match inst.host with
  | none => none
  | some host =>
    match host.server_model with
    | none => none
    | some profile =>
      if host.cpu_count = 0 then some 0
      else some (pyRound2 (host_total_cost profile st / host.cpu_count *
        get_instance_vcpus flavors inst host.cluster))

/-- Per-instance monthly cost as worded by claim C6, before any rounding.
Stated from the claim ("accumulate each instance's cost in full precision")
for comparison with the code's accumulation of rounded costs. -/
def instance_cost_unrounded (flavors : List CFlavor) (st : CostSettings)
    (inst : CInstance) : Option ℚ :=
  match inst.host with
  | none => none
  | some host =>
    match host.server_model with
    | none => none
    | some profile =>
      if host.cpu_count = 0 then some 0
      else some (host_total_cost profile st / host.cpu_count *
        get_instance_vcpus flavors inst host.cluster)

/-- CostService.calculate_host_cost (cost_service.py:123-149), as the triple
(power_cost, amortization, total_cost). -/
def calculate_host_cost (host : CHost) (st : CostSettings) : Option (ℚ × ℚ × ℚ) :=
  match host.server_model with
  | none => none
  | some profile =>
    some (pyRound2 (power_cost profile st), profile.monthly_amortization,
      pyRound2 (profile.monthly_amortization + power_cost profile st))

/-- Per-project aggregation entry (cost_service.py:99-109).  The `vcpus`
counter is initialized to 0 and never incremented by the source. -/
structure ProjectEntry where
  pid : String
  instance_count : Nat
  total_cost : ℚ
  vcpus : Nat
deriving DecidableEq

/-- Accumulate one instance into the per-project grouping, preserving the
insertion order of project identifiers (Python dicts iterate in insertion
order). -/
def addInstance (projects : List ProjectEntry) (pid : String) (cost : ℚ) : List ProjectEntry :=
  match projects with
  | [] => [⟨pid, 1, cost, 0⟩]
  | e :: rest =>
    if e.pid = pid then ⟨pid, e.instance_count + 1, e.total_cost + cost, e.vcpus⟩ :: rest
    else e :: addInstance rest pid cost

/-- Stable insertion into a descending-by-total list, matching Python's stable
`sorted(..., key=..., reverse=True)`. -/
def insertDesc (e : ProjectEntry) : List ProjectEntry → List ProjectEntry
  | [] => [e]
  | x :: xs => if x.total_cost < e.total_cost then e :: x :: xs else x :: insertDesc e xs

/-- Stable descending sort by total cost (cost_service.py:111-115). -/
def sortProjectsDesc (l : List ProjectEntry) : List ProjectEntry :=
  l.foldl (fun acc e => insertDesc e acc) []

/-- Result shape of calculate_project_costs. -/
structure ProjectCosts where
  projects : List ProjectEntry
  total_monthly : ℚ
  projected_yearly : ℚ
deriving DecidableEq

/-- Loop body of calculate_project_costs (cost_service.py:95-109): each
instance contributes its already-rounded cost (absent treated as 0, matching
`... or 0.0`) to its project's entry and to the running grand total. -/
def projStep (flavors : List CFlavor) (st : CostSettings)
    (acc : List ProjectEntry × ℚ) (inst : CInstance) : List ProjectEntry × ℚ :=
  (addInstance acc.1 inst.project_id ((calculate_instance_cost flavors st inst).getD 0),
    acc.2 + (calculate_instance_cost flavors st inst).getD 0)

/-- CostService.calculate_project_costs (cost_service.py:76-121). -/
def calculate_project_costs (flavors : List CFlavor) (st : CostSettings)
    (instances : List CInstance) : ProjectCosts :=
  { projects := sortProjectsDesc (instances.foldl (projStep flavors st) ([], 0)).1
    total_monthly := pyRound2 (instances.foldl (projStep flavors st) ([], 0)).2
    projected_yearly := pyRound2 ((instances.foldl (projStep flavors st) ([], 0)).2 * 12) }

/-! ### Claim C5 -/

/-- Concrete cost inputs of the claim: averageWatts=400,
electricityCost=0.12, PUE=1.5, amortization=200.00, cpuCount=64,
flavor vcpus=2. -/
def profile5 : ServerCostProfile := ⟨200, 400⟩

def st5 : CostSettings := ⟨12/100, 3/2⟩

def host5 : CHost := ⟨some profile5, 64, "c1"⟩

def flavor5 : CFlavor := ⟨"m1.small", "c1", 2⟩

def inst5 : CInstance := ⟨some host5, "m1.small", "proj-1"⟩

/-- C5: for a host with a cost profile, the published power cost is the
formula `(averageWatts / 1000) * 24 * 30 * electricityCost * PUE` (rounded at
externalization) and the total is amortization plus power cost; on the
claim's concrete inputs the values are 51.84 (= 1296/25), 251.84 (= 6296/25)
and the instance cost 7.87 (= 787/100). -/
theorem C5_cost_formula (host : CHost) (st : CostSettings) (p : ServerCostProfile)
    (hp : host.server_model = some p) :
    calculate_host_cost host st =
      some (pyRound2 (p.average_watts / 1000 * 24 * 30 * st.electricity_cost * st.pue),
        p.monthly_amortization,
        pyRound2 (p.monthly_amortization + power_cost p st)) ∧
    host_total_cost p st = power_cost p st + p.monthly_amortization ∧
    calculate_host_cost host5 st5 = some (1296/25, 200, 6296/25) ∧
    calculate_instance_cost [flavor5] st5 inst5 = some (787/100) := by
  have hpc : power_cost profile5 st5 = 1296/25 := by
    show (400 : ℚ) / 1000 * 24 * 30 * (12/100) * (3/2) = 1296/25
    norm_num
  refine ⟨?_, ?_, ?_, ?_⟩
  · unfold calculate_host_cost
    rw [hp]
    rfl
  · unfold host_total_cost
    ring
  · have hdef : calculate_host_cost host5 st5 =
        some (pyRound2 (power_cost profile5 st5), (200 : ℚ),
          pyRound2 ((200 : ℚ) + power_cost profile5 st5)) := rfl
    have h2 : pyRound2 (1296/25 : ℚ) = 1296/25 := by
      unfold pyRound2
      rw [show ((1296/25 : ℚ) * 100) = ((5184 : ℤ) : ℚ) by norm_num, round_half_even_intCast]
      norm_num
    have h3 : pyRound2 ((200 : ℚ) + 1296/25) = 6296/25 := by
      unfold pyRound2
      rw [show (((200 : ℚ) + 1296/25) * 100) = ((25184 : ℤ) : ℚ) by norm_num,
        round_half_even_intCast]
      norm_num
    rw [hdef, hpc, h2, h3]
  · have hv : get_instance_vcpus [flavor5] inst5 host5.cluster = 2 := rfl
    have hdef : calculate_instance_cost [flavor5] st5 inst5 =
        some (pyRound2 (host_total_cost profile5 st5 / (host5.cpu_count : ℚ) *
          (get_instance_vcpus [flavor5] inst5 host5.cluster : ℚ))) := rfl
    have hval : host_total_cost profile5 st5 / (host5.cpu_count : ℚ) *
        (get_instance_vcpus [flavor5] inst5 host5.cluster : ℚ) = 787/100 := by
      rw [hv]
      show ((200 : ℚ) + power_cost profile5 st5) / ((64 : ℕ) : ℚ) * ((2 : ℕ) : ℚ) = 787/100
      rw [hpc]
      push_cast
      norm_num
    have h4 : pyRound2 (787/100 : ℚ) = 787/100 := by
      unfold pyRound2
      rw [show ((787/100 : ℚ) * 100) = ((787 : ℤ) : ℚ) by norm_num, round_half_even_intCast]
      norm_num
    rw [hdef, hval, h4]

theorem C5_cost_formula_witness :
    calculate_host_cost host5 st5 = some (1296/25, 200, 6296/25) :=
  (C5_cost_formula host5 st5 profile5 rfl).2.2.1

/-! ### Claim C6 -/

theorem cost_cents (flavors : List CFlavor) (st : CostSettings) (inst : CInstance) :
    ∃ n : ℤ, (calculate_instance_cost flavors st inst).getD 0 = (n : ℚ) / 100 := by
  unfold calculate_instance_cost
  split
  · exact ⟨0, by norm_num⟩
  · split
    · exact ⟨0, by norm_num⟩
    · split
      · exact ⟨0, by norm_num⟩
      · exact ⟨_, rfl⟩

theorem sum_cost_cents (flavors : List CFlavor) (st : CostSettings) :
    ∀ l : List CInstance,
      ∃ n : ℤ, (l.map (fun i => (calculate_instance_cost flavors st i).getD 0)).sum =
        (n : ℚ) / 100 := by
  intro l
  induction l with
  | nil => exact ⟨0, by norm_num⟩
  | cons i t ih =>
    obtain ⟨m, hm⟩ := cost_cents flavors st i
    obtain ⟨n, hn⟩ := ih
    refine ⟨m + n, ?_⟩
    rw [List.map_cons, List.sum_cons, hm, hn]
    push_cast
    ring

theorem proj_fold_total (flavors : List CFlavor) (st : CostSettings) :
    ∀ (l : List CInstance) (ps : List ProjectEntry) (q : ℚ),
      (l.foldl (projStep flavors st) (ps, q)).2 =
        q + (l.map (fun i => (calculate_instance_cost flavors st i).getD 0)).sum := by
  intro l
  induction l with
  | nil => intro ps q; simp
  | cons i t ih =>
    intro ps q
    rw [List.foldl_cons]
    rw [ih]
    rw [List.map_cons, List.sum_cons]
    show q + (calculate_instance_cost flavors st i).getD 0 + _ = _
    ring

/-- C6 as amended: the per-project and grand totals accumulate the
per-instance costs as already rounded to 2 decimals by
`calculate_instance_cost` (so rounding happens per instance, before
accumulation, and per-instance rounding error can compound across instances);
the final rounding of the grand total is then the identity, and the reported
projectedYearly equals totalMonthly * 12 exactly. -/
theorem C6_amended (flavors : List CFlavor) (st : CostSettings)
    (instances : List CInstance) :
    (calculate_project_costs flavors st instances).total_monthly =
      (instances.map (fun i => (calculate_instance_cost flavors st i).getD 0)).sum ∧
    (calculate_project_costs flavors st instances).projected_yearly =
      (calculate_project_costs flavors st instances).total_monthly * 12 := by
  obtain ⟨n, hn⟩ := sum_cost_cents flavors st instances
  have hacc : (instances.foldl (projStep flavors st) ([], 0)).2 =
      (instances.map (fun i => (calculate_instance_cost flavors st i).getD 0)).sum := by
    rw [proj_fold_total]
    ring
  have h1 : (calculate_project_costs flavors st instances).total_monthly =
      pyRound2 (instances.foldl (projStep flavors st) ([], 0)).2 := rfl
  have h2 : (calculate_project_costs flavors st instances).projected_yearly =
      pyRound2 ((instances.foldl (projStep flavors st) ([], 0)).2 * 12) := rfl
  have h12 : ((n : ℚ) / 100) * 12 = ((12 * n : ℤ) : ℚ) / 100 := by
    push_cast
    ring
  constructor
  · rw [h1, hacc, hn, pyRound2_cents]
  · rw [h1, h2, hacc, hn, h12, pyRound2_cents, pyRound2_cents, ← h12]

/-- Cost inputs on which per-instance rounding is visible: each instance's
full-precision cost is 10/3. -/
def st6 : CostSettings := ⟨0, 1⟩

def profile6 : ServerCostProfile := ⟨10, 0⟩

def host6 : CHost := ⟨some profile6, 3, "c1"⟩

def inst6 : CInstance := ⟨some host6, "m1.tiny", "P"⟩

/-- C6 counterexample: two instances of full-precision cost 10/3 in one
project.  The code accumulates the per-instance rounded costs 3.33 + 3.33 and
reports 6.66; accumulating in full precision and rounding once at the end, as
the claim states, yields 6.67. -/
theorem C6_counterexample :
    (calculate_project_costs [] st6 [inst6, inst6]).total_monthly = 333/50 ∧
    pyRound2 ((instance_cost_unrounded [] st6 inst6).getD 0 +
      (instance_cost_unrounded [] st6 inst6).getD 0) = 667/100 ∧
    (333/50 : ℚ) ≠ 667/100 := by
  have hval : host_total_cost profile6 st6 / (host6.cpu_count : ℚ) *
      (get_instance_vcpus [] inst6 host6.cluster : ℚ) = 10/3 := by
    show ((10 : ℚ) + power_cost profile6 st6) / ((3 : ℕ) : ℚ) * ((1 : ℕ) : ℚ) = 10/3
    show ((10 : ℚ) + (0 : ℚ) / 1000 * 24 * 30 * 0 * 1) / ((3 : ℕ) : ℚ) * ((1 : ℕ) : ℚ) = 10/3
    push_cast
    norm_num
  have hc : (calculate_instance_cost [] st6 inst6).getD 0 = 333/100 := by
    have hdef : calculate_instance_cost [] st6 inst6 =
        some (pyRound2 (host_total_cost profile6 st6 / (host6.cpu_count : ℚ) *
          (get_instance_vcpus [] inst6 host6.cluster : ℚ))) := rfl
    have hfl : (⌊(1000/3 : ℚ)⌋ : ℤ) = 333 := by norm_num
    have hround : pyRound2 (10/3 : ℚ) = 333/100 := by
      unfold pyRound2 round_half_even
      rw [show ((10 : ℚ)/3 * 100) = 1000/3 by norm_num, hfl, if_pos (by norm_num)]
      norm_num
    rw [hdef, Option.getD_some, hval, hround]
  refine ⟨?_, ?_, by norm_num⟩
  · have htot : (calculate_project_costs [] st6 [inst6, inst6]).total_monthly =
        pyRound2 (0 + (calculate_instance_cost [] st6 inst6).getD 0 +
          (calculate_instance_cost [] st6 inst6).getD 0) := rfl
    rw [htot, hc,
      show ((0 : ℚ) + 333/100 + 333/100) = ((666 : ℤ) : ℚ)/100 by push_cast; norm_num,
      pyRound2_cents]
    norm_num
  · have hu : (instance_cost_unrounded [] st6 inst6).getD 0 = 10/3 := by
      have hdef2 : instance_cost_unrounded [] st6 inst6 =
          some (host_total_cost profile6 st6 / (host6.cpu_count : ℚ) *
            (get_instance_vcpus [] inst6 host6.cluster : ℚ)) := rfl
      rw [hdef2, Option.getD_some, hval]
    have hfl2 : (⌊(2000/3 : ℚ)⌋ : ℤ) = 666 := by norm_num
    rw [hu, show ((10 : ℚ)/3 + 10/3) = 20/3 by norm_num]
    unfold pyRound2 round_half_even
    rw [show ((20 : ℚ)/3 * 100) = 2000/3 by norm_num, hfl2, if_neg (by norm_num),
      if_pos (by norm_num)]
    norm_num

end Portal
